import Mathlib

/-!
Verification of the file classification and lexical entity extraction engine
of `BE/py/code_analyzer.py` (class `CodeAnalyzer`).

The Python code is shallowly embedded: every regular expression of
`LANGUAGE_PATTERNS` is transcribed into a small regex AST (`RE`) and executed
by a backtracking matcher (`matchRE`) that mirrors Python `re` semantics
(leftmost match, greedy/lazy quantifiers, ordered alternation, first
non-empty capture group).  Character classes `\w` and `\s` are modelled by
their ASCII meaning (the repository's sources and the concrete test inputs
are ASCII).  File contents are Lean `String`s; a separate constructor models
a dependency-injected non-string content whose first use
(`content.split('\n')`) raises inside `analyze_file`, after the statistics
update that precedes it in the source.
-/

/-- ASCII model of Python's regex class `\w` : `[A-Za-z0-9_]`. -/
def isWordChar (c : Char) : Bool :=
  c.isAlpha || c.isDigit || c = '_'

/-- ASCII model of Python's regex class `\s` : space, tab, newline, carriage
return, vertical tab, form feed. -/
def isSpaceChar (c : Char) : Bool :=
  c = ' ' || c = '\t' || c = '\n' || c = '\r' || c = '\x0b' || c = '\x0c'

/-- Python `str.split(sep)` for a one-character separator, Python semantics:
empty pieces are kept, and the empty string yields `[[]]`. -/
def splitCh (sep : Char) : List Char → List (List Char)
  | [] => [[]]
  | c :: rest =>
    match splitCh sep rest with
    | [] => [[]]
    | h :: t => if c = sep then [] :: h :: t else (c :: h) :: t

/-- Python `'\n'.join(...)`, on character lists. -/
def joinNl : List (List Char) → List Char
  | [] => []
  | [l] => l
  | l :: ls => l ++ '\n' :: joinNl ls

/-- Occurrence count of an element in a list (used to state edge
multiplicities). -/
def cnt {α : Type} [DecidableEq α] (a : α) : List α → Nat
  | [] => 0
  | b :: l => (if b = a then 1 else 0) + cnt a l

/-- Capture environment of a regex match: group index paired with the
captured characters; the most recent binding of an index wins. -/
abbrev Caps := List (Nat × List Char)

def setCap (caps : Caps) (i : Nat) (v : List Char) : Caps := (i, v) :: caps

def getCap (caps : Caps) (i : Nat) : Option (List Char) :=
  (caps.find? (fun p => p.1 == i)).map (·.2)

/-- Regex abstract syntax, covering exactly the constructs used by the
patterns in `CodeAnalyzer.LANGUAGE_PATTERNS`: literals, single-character
classes, greedy and lazy star/plus over a character class, sequencing,
ordered alternation, greedy option, and numbered capture groups. -/
inductive RE where
  | eps
  | lit (cs : List Char)
  | cls (p : Char → Bool)
  | clsStar (p : Char → Bool)
  | clsStarLazy (p : Char → Bool)
  | clsPlus (p : Char → Bool)
  | clsPlusLazy (p : Char → Bool)
  | seq (a b : RE)
  | alt (a b : RE)
  | opt (a : RE)
  | grp (i : Nat) (a : RE)

/-- Greedy Kleene star over a character class with backtracking: consume as
many class characters as possible, then retry the continuation on shorter
prefixes. -/
def starRun (p : Char → Bool) (k : List Char → Caps → Option Caps) :
    List Char → Caps → Option Caps
  | [], caps => k [] caps
  | c :: rest, caps =>
    if p c then
      match starRun p k rest caps with
      | some r => some r
      | none => k (c :: rest) caps
    else k (c :: rest) caps

/-- Lazy Kleene star over a character class: try the continuation first,
consume a class character only on failure. -/
def starRunLazy (p : Char → Bool) (k : List Char → Caps → Option Caps) :
    List Char → Caps → Option Caps
  | [], caps => k [] caps
  | c :: rest, caps =>
    match k (c :: rest) caps with
    | some r => some r
    | none => if p c then starRunLazy p k rest caps else none

/-- Backtracking matcher in continuation-passing style.  `matchRE re s caps k`
tries to match `re` against a prefix of `s`, calling `k` with the remaining
input and updated captures; alternatives are explored in Python `re`'s
preference order. -/
def matchRE : RE → List Char → Caps → (List Char → Caps → Option Caps) → Option Caps
  | .eps, s, caps, k => k s caps
  | .lit cs, s, caps, k =>
    if cs.isPrefixOf s then k (s.drop cs.length) caps else none
  | .cls p, s, caps, k =>
    match s with
    | [] => none
    | c :: rest => if p c then k rest caps else none
  | .clsStar p, s, caps, k => starRun p k s caps
  | .clsStarLazy p, s, caps, k => starRunLazy p k s caps
  | .clsPlus p, s, caps, k =>
    match s with
    | [] => none
    | c :: rest => if p c then starRun p k rest caps else none
  | .clsPlusLazy p, s, caps, k =>
    match s with
    | [] => none
    | c :: rest => if p c then starRunLazy p k rest caps else none
  | .seq a b, s, caps, k =>
    matchRE a s caps (fun s2 caps2 => matchRE b s2 caps2 k)
  | .alt a b, s, caps, k =>
    match matchRE a s caps k with
    | some r => some r
    | none => matchRE b s caps k
  | .opt a, s, caps, k =>
    match matchRE a s caps k with
    | some r => some r
    | none => k s caps
  | .grp i a, s, caps, k =>
    matchRE a s caps
      (fun s2 caps2 => k s2 (setCap caps2 i (s.take (s.length - s2.length))))

/-- Attempt a match at the current position; group 0 records the whole
match, as in Python. -/
def matchHere (re : RE) (s : List Char) : Option Caps :=
  matchRE re s [] (fun rest caps => some (setCap caps 0 (s.take (s.length - rest.length))))

/-- Python `re.finditer` for an unanchored pattern applied to a single line:
scan left to right, emit non-overlapping matches, resume after each match
(advancing one character after an empty match). -/
def scanFrom (re : RE) : List Char → List Caps
  | [] =>
    (match matchHere re [] with
     | some caps => [caps]
     | none => [])
  | c :: rest =>
    match matchHere re (c :: rest) with
    | some caps =>
      let L := ((getCap caps 0).getD []).length
      if _h : L = 0 then caps :: scanFrom re rest
      else caps :: scanFrom re ((c :: rest).drop L)
    | none => scanFrom re rest
termination_by s => s.length
decreasing_by
  all_goals simp [List.length_drop] <;> omega

/-- Python `match.groups()` followed by the extractor loop of `analyze_file`:
the first group (in index order) that captured a non-empty string. -/
def firstGroupName (caps : Caps) (n : Nat) : Option (List Char) :=
  (List.range n).findSome? (fun j =>
    match getCap caps (j + 1) with
    | some v => if v.isEmpty then none else some v
    | none => none)

/-- A compiled pattern of the `LANGUAGE_PATTERNS` table.  `anchored` records
whether the source regex starts with `^`; lines contain no newline, so with
`re.MULTILINE` an anchored pattern can only match at position 0. -/
structure RegexSpec where
  anchored : Bool
  re : RE
  ngroups : Nat

/-- All names extracted from one line by `re.finditer` plus the
first-truthy-group loop of `analyze_file` (matches without a non-empty
group are dropped, mirroring `if name:`). -/
def patNames (pat : RegexSpec) (line : List Char) : List (List Char) :=
  let ms :=
    if pat.anchored then
      match matchHere pat.re line with
      | some caps => [caps]
      | none => []
    else scanFrom pat.re line
  ms.filterMap (fun caps => firstGroupName caps pat.ngroups)

/-- Right-nested sequencing of a list of regexes. -/
def seqs : List RE → RE
  | [] => .eps
  | [r] => r
  | r :: rs => .seq r (seqs rs)

def litS (s : String) : RE := .lit s.toList

def wsStar : RE := .clsStar isSpaceChar

def wsPlus : RE := .clsPlus isSpaceChar

def wordPlus : RE := .clsPlus isWordChar

def grpWord (i : Nat) : RE := .grp i wordPlus

/-- The class of `.` with no DOTALL flag: any character but a newline. -/
def notNl (c : Char) : Bool := c != '\n'

def notRParen (c : Char) : Bool := c != ')'

def isQuoteCh (c : Char) : Bool := c = '\'' || c = '"'

/-- The sub-expression `(?:async\s*)?`. -/
def optAsync : RE := .opt (seqs [litS "async", wsStar])

/-- Pattern `^\s*KW\s+(\w+)` for a keyword `KW` (Python/Ruby `def`,
several languages' `class`, Ruby `module`). -/
def kwName (kw : String) : RegexSpec :=
  ⟨true, seqs [wsStar, litS kw, wsPlus, grpWord 1], 1⟩

/-- Python `'import'`: `^\s*(?:from\s+[\w.]+\s+)?import\s+([\w.,\s]+)`. -/
def pyImportRegex : RegexSpec :=
  ⟨true,
   seqs [wsStar,
         .opt (seqs [litS "from", wsPlus,
                     .clsPlus (fun c => isWordChar c || c = '.'), wsPlus]),
         litS "import", wsPlus,
         .grp 1 (.clsPlus (fun c => isWordChar c || c = '.' || c = ',' || isSpaceChar c))],
   1⟩

/-- JS/TS `'function'` (unanchored):
`(?:function\s+(\w+)|const\s+(\w+)\s*=\s*(?:async\s*)?\(|(\w+)\s*:\s*(?:async\s*)?function)`. -/
def jsFunctionRegex : RegexSpec :=
  ⟨false,
   .alt (seqs [litS "function", wsPlus, grpWord 1])
     (.alt (seqs [litS "const", wsPlus, grpWord 2, wsStar, litS "=", wsStar,
                  optAsync, litS "("])
           (seqs [grpWord 3, wsStar, litS ":", wsStar, optAsync, litS "function"])),
   3⟩

/-- JS/TS `'import'`: `^\s*import\s+.*?from\s+['"](.+?)['"]`. -/
def jsImportRegex : RegexSpec :=
  ⟨true,
   seqs [wsStar, litS "import", wsPlus, .clsStarLazy notNl,
         litS "from", wsPlus, .cls isQuoteCh, .grp 1 (.clsPlusLazy notNl),
         .cls isQuoteCh],
   1⟩

/-- TS `'class'`: `^\s*(?:export\s+)?(?:abstract\s+)?class\s+(\w+)`. -/
def tsClassRegex : RegexSpec :=
  ⟨true,
   seqs [wsStar, .opt (seqs [litS "export", wsPlus]),
         .opt (seqs [litS "abstract", wsPlus]), litS "class", wsPlus, grpWord 1],
   1⟩

/-- TS `'interface'`: `^\s*(?:export\s+)?interface\s+(\w+)`. -/
def tsInterfaceRegex : RegexSpec :=
  ⟨true,
   seqs [wsStar, .opt (seqs [litS "export", wsPlus]), litS "interface", wsPlus,
         grpWord 1],
   1⟩

/-- Java `'function'`:
`^\s*(?:public|private|protected)?\s*(?:static\s+)?(?:\w+\s+)?(\w+)\s*\([^)]*\)\s*(?:throws\s+[\w,\s]+)?\s*\{`. -/
def javaFunctionRegex : RegexSpec :=
  ⟨true,
   seqs [wsStar,
         .opt (.alt (litS "public") (.alt (litS "private") (litS "protected"))),
         wsStar, .opt (seqs [litS "static", wsPlus]),
         .opt (seqs [wordPlus, wsPlus]), grpWord 1, wsStar,
         litS "(", .clsStar notRParen, litS ")", wsStar,
         .opt (seqs [litS "throws", wsPlus,
                     .clsPlus (fun c => isWordChar c || c = ',' || isSpaceChar c)]),
         wsStar, .lit ['\x7b']],
   1⟩

/-- Java `'class'`: `^\s*(?:public\s+)?(?:abstract\s+)?class\s+(\w+)`
(also C# `'class'`). -/
def javaClassRegex : RegexSpec :=
  ⟨true,
   seqs [wsStar, .opt (seqs [litS "public", wsPlus]),
         .opt (seqs [litS "abstract", wsPlus]), litS "class", wsPlus, grpWord 1],
   1⟩

/-- Java `'interface'`: `^\s*(?:public\s+)?interface\s+(\w+)`. -/
def javaInterfaceRegex : RegexSpec :=
  ⟨true,
   seqs [wsStar, .opt (seqs [litS "public", wsPlus]), litS "interface", wsPlus,
         grpWord 1],
   1⟩

/-- C# `'function'`:
`^\s*(?:public|private|protected|internal)?\s*(?:static\s+)?(?:async\s+)?(?:\w+\s+)?(\w+)\s*\(`. -/
def csFunctionRegex : RegexSpec :=
  ⟨true,
   seqs [wsStar,
         .opt (.alt (litS "public")
                (.alt (litS "private") (.alt (litS "protected") (litS "internal")))),
         wsStar, .opt (seqs [litS "static", wsPlus]),
         .opt (seqs [litS "async", wsPlus]),
         .opt (seqs [wordPlus, wsPlus]), grpWord 1, wsStar, litS "("],
   1⟩

/-- C++ `'function'`: `^\s*(?:[\w:]+\s+)?(\w+)\s*\([^)]*\)\s*(?:const)?\s*\{`. -/
def cppFunctionRegex : RegexSpec :=
  ⟨true,
   seqs [wsStar,
         .opt (seqs [.clsPlus (fun c => isWordChar c || c = ':'), wsPlus]),
         grpWord 1, wsStar, litS "(", .clsStar notRParen, litS ")", wsStar,
         .opt (litS "const"), wsStar, .lit ['\x7b']],
   1⟩

/-- Go `'function'`: `^\s*func\s+(?:\([^)]*\)\s*)?(\w+)`. -/
def goFunctionRegex : RegexSpec :=
  ⟨true,
   seqs [wsStar, litS "func", wsPlus,
         .opt (seqs [litS "(", .clsStar notRParen, litS ")", wsStar]), grpWord 1],
   1⟩

/-- Go `'type'`: `^\s*type\s+(\w+)\s+(?:struct|interface)`. -/
def goTypeRegex : RegexSpec :=
  ⟨true,
   seqs [wsStar, litS "type", wsPlus, grpWord 1, wsPlus,
         .alt (litS "struct") (litS "interface")],
   1⟩

/-- Rust `^\s*(?:pub\s+)?KW\s+(\w+)` for `fn`, `struct`, `trait`. -/
def rustKwRegex (kw : String) : RegexSpec :=
  ⟨true,
   seqs [wsStar, .opt (seqs [litS "pub", wsPlus]), litS kw, wsPlus, grpWord 1],
   1⟩

/-- PHP `'function'`: `^\s*(?:public|private|protected)?\s*function\s+(\w+)`. -/
def phpFunctionRegex : RegexSpec :=
  ⟨true,
   seqs [wsStar,
         .opt (.alt (litS "public") (.alt (litS "private") (litS "protected"))),
         wsStar, litS "function", wsPlus, grpWord 1],
   1⟩

/-- Swift `^\s*(?:public\s+|private\s+)?KW\s+(\w+)` for `func`, `class`,
`struct`. -/
def swiftKwRegex (kw : String) : RegexSpec :=
  ⟨true,
   seqs [wsStar,
         .opt (.alt (seqs [litS "public", wsPlus]) (seqs [litS "private", wsPlus])),
         litS kw, wsPlus, grpWord 1],
   1⟩

/-- Kotlin `'function'`: `^\s*(?:fun|suspend\s+fun)\s+(\w+)`. -/
def ktFunctionRegex : RegexSpec :=
  ⟨true,
   seqs [wsStar, .alt (litS "fun") (seqs [litS "suspend", wsPlus, litS "fun"]),
         wsPlus, grpWord 1],
   1⟩

/-- Kotlin `'class'`: `^\s*(?:data\s+)?class\s+(\w+)`. -/
def ktClassRegex : RegexSpec :=
  ⟨true,
   seqs [wsStar, .opt (seqs [litS "data", wsPlus]), litS "class", wsPlus, grpWord 1],
   1⟩

/-- One entry of `CodeAnalyzer.LANGUAGE_PATTERNS`: the language name, its
`'extensions'` list, and the remaining named patterns in dict insertion
order (the extraction loop of `analyze_file` skips `'extensions'`). -/
structure LangSpec where
  name : String
  extensions : List String
  patterns : List (String × RegexSpec)

/-- Table `CodeAnalyzer.LANGUAGE_PATTERNS`, in source declaration order. -/
def LANGUAGE_PATTERNS : List LangSpec :=
  [⟨"python", [".py"],
    [("function", kwName "def"), ("class", kwName "class"),
     ("import", pyImportRegex)]⟩,
   ⟨"javascript", [".js", ".jsx", ".mjs"],
    [("function", jsFunctionRegex), ("class", kwName "class"),
     ("import", jsImportRegex)]⟩,
   ⟨"typescript", [".ts", ".tsx"],
    [("function", jsFunctionRegex), ("class", tsClassRegex),
     ("import", jsImportRegex), ("interface", tsInterfaceRegex)]⟩,
   ⟨"java", [".java"],
    [("function", javaFunctionRegex), ("class", javaClassRegex),
     ("interface", javaInterfaceRegex)]⟩,
   ⟨"csharp", [".cs"],
    [("function", csFunctionRegex), ("class", javaClassRegex)]⟩,
   ⟨"cpp", [".cpp", ".cc", ".cxx", ".hpp", ".h"],
    [("function", cppFunctionRegex), ("class", kwName "class")]⟩,
   ⟨"go", [".go"],
    [("function", goFunctionRegex), ("type", goTypeRegex)]⟩,
   ⟨"rust", [".rs"],
    [("function", rustKwRegex "fn"), ("struct", rustKwRegex "struct"),
     ("trait", rustKwRegex "trait")]⟩,
   ⟨"ruby", [".rb"],
    [("function", kwName "def"), ("class", kwName "class"),
     ("module", kwName "module")]⟩,
   ⟨"php", [".php"],
    [("function", phpFunctionRegex), ("class", kwName "class")]⟩,
   ⟨"swift", [".swift"],
    [("function", swiftKwRegex "func"), ("class", swiftKwRegex "class"),
     ("struct", swiftKwRegex "struct")]⟩,
   ⟨"kotlin", [".kt", ".kts"],
    [("function", ktFunctionRegex), ("class", ktClassRegex)]⟩]

/-- Set `CodeAnalyzer.MARKUP_LANGUAGES`. -/
def MARKUP_LANGUAGES : List String :=
  [".html", ".htm", ".xml", ".svg", ".md", ".markdown", ".rst", ".tex", ".adoc"]

/-- Set `CodeAnalyzer.CONFIG_FILES`. -/
def CONFIG_FILES : List String :=
  [".json", ".yaml", ".yml", ".toml", ".ini", ".cfg", ".conf", ".properties", ".env"]

/-- Set `CodeAnalyzer.STYLE_FILES`. -/
def STYLE_FILES : List String :=
  [".css", ".scss", ".sass", ".less", ".styl"]

/-- Python `Path(filepath).name`: the last path component; `pathlib` drops empty
and `'.'` segments, so the name is the last remaining `'/'`-separated
segment (empty when none remains). -/
def pathNameOf (p : String) : List Char :=
  (((splitCh '/' p.toList).filter (fun s => !s.isEmpty && s != ['.'])).getLast?).getD []

/-- Index of the last `'.'` in a list of characters, if any. -/
def lastDotIdx (cs : List Char) : Option Nat :=
  match cs.reverse.findIdx? (fun c => c == '.') with
  | some k => some (cs.length - 1 - k)
  | none => none

/-- Python `Path(filepath).suffix`: `name[i:]` for the last dot index `i` when
`0 < i < len(name) - 1`, else the empty string. -/
def pathSuffix (p : String) : String :=
  let nm := pathNameOf p
  match lastDotIdx nm with
  | some i => if 0 < i ∧ i < nm.length - 1 then String.mk (nm.drop i) else ""
  | none => ""

/-- Python `str.lower()` on the characters (ASCII model, matching `\\w`/`\\s`
above); implemented on the character list so that it reduces in the
kernel. -/
def lowerStr (s : String) : String := String.mk (s.toList.map Char.toLower)

/-- Python `Path(filepath).suffix.lower()`, the extension key used throughout
`CodeAnalyzer`. -/
def extOf (p : String) : String := lowerStr (pathSuffix p)

/-- The `LANGUAGE_PATTERNS` entry whose `'extensions'` list contains the
extension of `filepath` — the lookup loop shared by `detect_language` and
`analyze_file` (first entry in dict insertion order). -/
def findLangSpec (filepath : String) : Option LangSpec :=
  LANGUAGE_PATTERNS.find? (fun ls => ls.extensions.contains (extOf filepath))

/-- Method `CodeAnalyzer.detect_language`. -/
def detect_language (filepath : String) : Option String :=
  (findLangSpec filepath).map (·.name)

/-- Method `CodeAnalyzer.categorize_file`.  (`if self.detect_language(filepath):`
is truthiness on `Optional[str]`; language names are never the empty
string, so it coincides with `isSome`.) -/
def categorize_file (filepath : String) : String :=
  let ext := extOf filepath
  if (detect_language filepath).isSome then "code"
  else if MARKUP_LANGUAGES.contains ext then "markup"
  else if CONFIG_FILES.contains ext then "config"
  else if STYLE_FILES.contains ext then "style"
  else "other"

/-- An extracted entity dict: `{'type', 'name', 'line', 'language'}`. -/
structure Entity where
  type : String
  name : String
  line : Nat
  language : String
deriving DecidableEq, Repr

/-- A node dict: `{'type', 'name', 'line'}`. -/
structure NodeEntry where
  type : String
  name : String
  line : Nat
deriving DecidableEq, Repr

/-- An edge dict: `{'from', 'to', 'type'}`. -/
structure Edge where
  «from» : String
  «to» : String
  type : String
deriving DecidableEq, Repr

/-- Entities found by one pattern: for each line (1-based, as in
`enumerate(lines, 1)`), every `finditer` match with a non-empty group. -/
def scanLinesFor (langName ty : String) (pat : RegexSpec)
    (lines : List (List Char)) : List Entity :=
  (lines.enum.map (fun il =>
    (patNames pat il.2).map (fun nm =>
      Entity.mk ty (String.mk nm) (il.1 + 1) langName))).flatten

/-- The extraction loop of `analyze_file`: patterns in dict order
(`'extensions'` skipped), each scanned over all lines. -/
def extractEntities (langName : String) (pats : List (String × RegexSpec))
    (lines : List (List Char)) : List Entity :=
  (pats.map (fun tp => scanLinesFor langName tp.1 tp.2 lines)).flatten

/-- Test `entity_type in ['function', 'func', 'def']`. -/
def funcKinds : List String := ["function", "func", "def"]

/-- Test `entity_type in ['class', 'struct', 'interface', 'trait', 'type']`. -/
def classKinds : List String := ["class", "struct", "interface", "trait", "type"]

/-- The function-body window: `lines[start_line:start_line + 30]` joined
with newlines, `start_line = func['line'] - 1` (entity lines are 1-based,
so the subtraction never truncates on reachable inputs). -/
def windowBody (lines : List (List Char)) (declLine : Nat) : List Char :=
  joinNl ((lines.drop (declLine - 1)).take 30)

def wordAt (cs : List Char) (i : Nat) : Bool :=
  match cs.get? i with
  | some c => isWordChar c
  | none => false

/-- A `\b` word boundary holds at position `i` iff exactly one of the
neighbouring characters is a word character. -/
def boundaryAt (cs : List Char) (i : Nat) : Bool :=
  (match i with
   | 0 => false
   | j + 1 => wordAt cs j) != wordAt cs i

/-- Python `re.search(r'\b' + re.escape(nm) + r'\b', body)`: the (escaped, hence
literal) name occurs at some position with word boundaries on both sides. -/
def wordSearch (nm cs : List Char) : Bool :=
  (List.range (cs.length + 1)).any (fun i =>
    nm.isPrefixOf (cs.drop i) && boundaryAt cs i && boundaryAt cs (i + nm.length))

def occursWord (nm : String) (body : List Char) : Bool := wordSearch nm.toList body

/-- The per-function edge list: every occurrence of a different entity
name (the `all_names` list, duplicates included) found word-bounded in the
function's window yields a `calls` edge. -/
def edgesFor (allNames : List String) (lines : List (List Char)) (f : Entity) :
    List Edge :=
  allNames.filterMap (fun n =>
    if n ≠ f.name ∧ occursWord n (windowBody lines f.line) then
      some { «from» := f.name, «to» := n, type := "calls" }
    else none)

/-- The call-graph loop of `analyze_file`: one pass per function entity. -/
def buildEdges (entities : List Entity) (lines : List (List Char)) : List Edge :=
  let allNames := entities.map (·.name)
  ((entities.filter (fun e => funcKinds.contains e.type)).map
    (edgesFor allNames lines)).flatten

/-- The per-file result dict of `analyze_file`.  `entityCount` is `none`
for the non-code branch, whose dict has no `'entity_count'` key. -/
structure FileResult where
  filepath : String
  language : Option String
  category : String
  extension : String
  lines : Nat
  size : Nat
  nodes : List NodeEntry
  edges : List Edge
  functions : List Entity
  classes : List Entity
  entities : List Entity
  entityCount : Option Nat
deriving DecidableEq, Repr

/-- The `if not language:` branch of `analyze_file`. -/
def nonCodeResult (content : String) (filepath : String) : FileResult :=
  { filepath := filepath
    language := none
    category := categorize_file filepath
    extension := extOf filepath
    lines := (splitCh '\n' content.toList).length
    size := content.length
    nodes := []
    edges := []
    functions := []
    classes := []
    entities := []
    entityCount := none }

/-- The code branch of `analyze_file`.  `functions` and `classes` are
appended exactly when an entity of the corresponding kind is appended to
`entities`, hence they equal the kind-filtered entity list. -/
def codeResult (spec : LangSpec) (content : String) (filepath : String) :
    FileResult :=
  let lines := splitCh '\n' content.toList
  let entities := extractEntities spec.name spec.patterns lines
  { filepath := filepath
    language := some spec.name
    category := categorize_file filepath
    extension := extOf filepath
    lines := lines.length
    size := content.length
    nodes := entities.map (fun e => ⟨e.type, e.name, e.line⟩)
    edges := buildEdges entities lines
    functions := entities.filter (fun e => funcKinds.contains e.type)
    classes := entities.filter (fun e => classKinds.contains e.type)
    entities := entities
    entityCount := some entities.length }

/-- Function `analyze_file` restricted to a genuine string content (this
part never raises). -/
def fileResultStr (content : String) (filepath : String) : FileResult :=
  match findLangSpec filepath with
  | some spec => codeResult spec content filepath
  | none => nonCodeResult content filepath

/-- The content value handed to `analyze_file`.  `nonStr` models a
dependency-injected non-string (e.g. `None`): its first use,
`content.split('\n')`, raises `AttributeError` — after the statistics
update, which only uses `filepath`. -/
inductive RawContent where
  | str (s : String)
  | nonStr
deriving DecidableEq, Repr

/-- The result part of `analyze_file`: `none` models the raised exception. -/
def fileResultOpt : RawContent → String → Option FileResult
  | .str c, p => some (fileResultStr c p)
  | .nonStr, _ => none

/-- State `self.stats`: fixed category counters plus the `files_by_type` and
`files_by_language` dicts as insertion-ordered association lists. -/
structure Stats where
  total_files : Nat
  files_by_type : List (String × Nat)
  cat_code : Nat
  cat_markup : Nat
  cat_config : Nat
  cat_style : Nat
  cat_other : Nat
  files_by_language : List (String × Nat)
deriving DecidableEq, Repr

/-- Update `d[k] = d.get(k, 0) + 1` on an insertion-ordered dict. -/
def bump (d : List (String × Nat)) (k : String) : List (String × Nat) :=
  if d.any (fun p => p.1 == k) then
    d.map (fun p => if p.1 == k then (p.1, p.2 + 1) else p)
  else d ++ [(k, 1)]

/-- Update `self.stats['files_by_category'][category] += 1`.  `categorize_file`
only returns the five keys below; any other key would raise `KeyError`
(unreachable), modelled as a no-op. -/
def bumpCategory (st : Stats) (category : String) : Stats :=
  if category = "code" then { st with cat_code := st.cat_code + 1 }
  else if category = "markup" then { st with cat_markup := st.cat_markup + 1 }
  else if category = "config" then { st with cat_config := st.cat_config + 1 }
  else if category = "style" then { st with cat_style := st.cat_style + 1 }
  else if category = "other" then { st with cat_other := st.cat_other + 1 }
  else st

/-- The statistics update at the top of `analyze_file` (lines 146–151):
it precedes any use of `content`, so it also happens for a file whose
analysis subsequently raises. -/
def updateStatsForFile (st : Stats) (filepath : String) : Stats :=
  let category := categorize_file filepath
  let st1 := { st with total_files := st.total_files + 1 }
  let st2 := bumpCategory st1 category
  { st2 with files_by_type := bump st2.files_by_type (extOf filepath) }

/-- Method `CodeAnalyzer.analyze_file`: mutates the stats, then either returns a
result dict or raises (`none`). -/
def analyze_file (st : Stats) (content : RawContent) (filepath : String) :
    Stats × Option FileResult :=
  (updateStatsForFile st filepath, fileResultOpt content filepath)

/-- The aggregate dict returned by `analyze_repository`. -/
structure RepoResult where
  success : Bool
  files_analyzed : Nat
  results : List FileResult
  stats : Stats
  total_functions : Nat
  total_classes : Nat
  total_entities : Nat
deriving DecidableEq, Repr

/-- The fresh stats dict `analyze_repository` installs before its loop. -/
def resetStats : Stats := ⟨0, [], 0, 0, 0, 0, 0, []⟩

/-- One iteration of the `analyze_repository` loop: the stats update
inside `analyze_file` always happens; on success the result is appended
and `files_by_language` bumped (`if result.get('language'):` — names are
non-empty, so truthiness is `isSome`); on exception the loop continues. -/
def repoStep (acc : Stats × List FileResult) (e : String × RawContent) :
    Stats × List FileResult :=
  let st2 := updateStatsForFile acc.1 e.1
  match fileResultOpt e.2 e.1 with
  | some r =>
    let st3 :=
      match r.language with
      | some lang => { st2 with files_by_language := bump st2.files_by_language lang }
      | none => st2
    (st3, acc.2 ++ [r])
  | none => (st2, acc.2)

/-- Method `CodeAnalyzer.analyze_repository`.  The incoming `self.stats` is the
first argument; the method begins by resetting it, so the result never
depends on it. -/
def analyze_repository (selfStats : Stats)
    (files_content : List (String × RawContent)) : RepoResult :=
  let _ := selfStats
  let acc := files_content.foldl repoStep (resetStats, [])
  { success := true
    files_analyzed := acc.2.length
    results := acc.2
    stats := acc.1
    total_functions := (acc.2.map (fun r => r.functions.length)).sum
    total_classes := (acc.2.map (fun r => r.classes.length)).sum
    total_entities := (acc.2.map (fun r => r.entityCount.getD 0)).sum }

/-- The worked example input: `{"a.py": "def foo():\n    bar()\n\ndef bar():\n    pass\n"}`. -/
def exampleContent : String := "def foo():\n    bar()\n\ndef bar():\n    pass\n"

/-- A Python file in which two entities share the name `bar` (a class and a
function), while `foo`'s 30-line window contains the word `bar`. -/
def dupContent : String :=
  "def foo():\n    bar()\n\nclass bar:\n    pass\n\ndef bar():\n    pass\n"

/-- Wrap a path→text mapping as genuine string contents. -/
def strFiles (l : List (String × String)) : List (String × RawContent) :=
  l.map (fun e => (e.1, RawContent.str e.2))

/-- C10: `analyze_repository` returns a dict whose `'success'` key is the
literal `True`, for every input mapping, including ones whose files all
raise during extraction; failure is observable only through
`files_analyzed`. -/
theorem analyze_repository_always_success (st : Stats)
    (fc : List (String × RawContent)) :
    (analyze_repository st fc).success = true := rfl

/-- C8: analysing the same file-content mapping twice — the second run
starting from the analyzer state the first run left behind — produces
identical `total_files`, per-category counts, per-language counts,
`total_functions`, `total_classes` and `total_entities` (the method resets
`self.stats` before its loop, so the result is independent of the incoming
state). -/
theorem analyze_repository_idempotent (st : Stats)
    (fc : List (String × RawContent)) :
    ((analyze_repository st fc).stats.total_files =
        (analyze_repository (analyze_repository st fc).stats fc).stats.total_files) ∧
    ((analyze_repository st fc).stats.cat_code =
        (analyze_repository (analyze_repository st fc).stats fc).stats.cat_code) ∧
    ((analyze_repository st fc).stats.cat_markup =
        (analyze_repository (analyze_repository st fc).stats fc).stats.cat_markup) ∧
    ((analyze_repository st fc).stats.cat_config =
        (analyze_repository (analyze_repository st fc).stats fc).stats.cat_config) ∧
    ((analyze_repository st fc).stats.cat_style =
        (analyze_repository (analyze_repository st fc).stats fc).stats.cat_style) ∧
    ((analyze_repository st fc).stats.cat_other =
        (analyze_repository (analyze_repository st fc).stats fc).stats.cat_other) ∧
    ((analyze_repository st fc).stats.files_by_language =
        (analyze_repository (analyze_repository st fc).stats fc).stats.files_by_language) ∧
    ((analyze_repository st fc).total_functions =
        (analyze_repository (analyze_repository st fc).stats fc).total_functions) ∧
    ((analyze_repository st fc).total_classes =
        (analyze_repository (analyze_repository st fc).stats fc).total_classes) ∧
    ((analyze_repository st fc).total_entities =
        (analyze_repository (analyze_repository st fc).stats fc).total_entities) :=
  ⟨rfl, rfl, rfl, rfl, rfl, rfl, rfl, rfl, rfl, rfl⟩

/-- C9: no extension string appears in two different extension tables —
the twelve per-language `'extensions'` lists and the markup, config and
style sets are pairwise disjoint, so extension dispatch is unambiguous. -/
theorem extension_tables_disjoint :
    ((LANGUAGE_PATTERNS.map (fun ls => ls.extensions)) ++
        [MARKUP_LANGUAGES, CONFIG_FILES, STYLE_FILES]).Pairwise
      (fun a b => ∀ x ∈ a, x ∉ b) := by decide

/-- C2: analysing `{"a.py": exampleContent}` yields one per-file result
holding exactly the two function entities `foo` (line 1) and `bar`
(line 4); its edge list is exactly `[{from: foo, to: bar, type: calls}]`,
and no `bar → foo` edge exists. -/
theorem example_single_file_analysis :
    ((analyze_repository resetStats [("a.py", RawContent.str exampleContent)]).results.map
        (fun r => r.entities) =
      [[Entity.mk "function" "foo" 1 "python", Entity.mk "function" "bar" 4 "python"]]) ∧
    ((analyze_repository resetStats [("a.py", RawContent.str exampleContent)]).results.map
        (fun r => r.edges) = [[Edge.mk "foo" "bar" "calls"]]) ∧
    Edge.mk "bar" "foo" "calls" ∉
      ((analyze_repository resetStats [("a.py", RawContent.str exampleContent)]).results.map
        (fun r => r.edges)).flatten := by decide

/-- C1, counterexample: in `dupContent` the class `bar` (line 4) and the
function `bar` (line 7) share one name, and the function `foo` emits the
edge `{from: foo, to: bar, type: calls}` twice — not exactly once as the
claim requires. -/
theorem duplicate_edge_counterexample :
    cnt (Edge.mk "foo" "bar" "calls") (fileResultStr dupContent "d.py").edges = 2 ∧
    (fileResultStr dupContent "d.py").edges =
      [Edge.mk "foo" "bar" "calls", Edge.mk "foo" "bar" "calls"] := by decide

/-- C4, counterexample: a repository of 3 files in which `b.py` raises
during extraction reports `files_analyzed = 2`, yet the `'stats'` block of
the same result counts all 3 supplied files (`total_files = 3`, two `.py`
files, two `code` files): the statistics update precedes the raising use
of the content, so the aggregate stats do not reflect only the successful
files. -/
theorem stats_count_failed_file_counterexample :
    ((analyze_repository resetStats
        [("a.py", RawContent.str "def foo():\n    pass\n"),
         ("b.py", RawContent.nonStr),
         ("c.md", RawContent.str "# hello")]).files_analyzed = 2) ∧
    ((analyze_repository resetStats
        [("a.py", RawContent.str "def foo():\n    pass\n"),
         ("b.py", RawContent.nonStr),
         ("c.md", RawContent.str "# hello")]).stats.total_files = 3) ∧
    ((analyze_repository resetStats
        [("a.py", RawContent.str "def foo():\n    pass\n"),
         ("b.py", RawContent.nonStr),
         ("c.md", RawContent.str "# hello")]).stats.files_by_type =
      [(".py", 2), (".md", 1)]) ∧
    ((analyze_repository resetStats
        [("a.py", RawContent.str "def foo():\n    pass\n"),
         ("b.py", RawContent.nonStr),
         ("c.md", RawContent.str "# hello")]).stats.cat_code = 2) := by decide

/-- C5: `categorize_file` is total — every path yields exactly one of the
five labels — and the label is `"code"` iff `detect_language` returns a
language. -/
theorem categorize_total_and_code_iff (p : String) :
    categorize_file p ∈ ["code", "markup", "config", "style", "other"] ∧
    (categorize_file p = "code" ↔ (detect_language p).isSome = true) := by
  by_cases h : (detect_language p).isSome = true
  · simp [categorize_file, h]
  · simp only [categorize_file, h, if_false, Bool.false_eq_true]
    split_ifs <;> simp_all

lemma find?_eq_some_split {α : Type} (q : α → Bool) (b : α) (l : List α) :
    l.find? q = some b ↔
      q b = true ∧ ∃ l1 l2, l = l1 ++ b :: l2 ∧ ∀ a ∈ l1, q a = false := by
  induction l with
  | nil => simp
  | cons x xs ih =>
    by_cases hx : q x
    · rw [List.find?_cons_of_pos _ hx]
      constructor
      · intro h
        injection h with h
        subst h
        exact ⟨hx, [], xs, rfl, by simp⟩
      · rintro ⟨hqb, l1, l2, heq, hall⟩
        cases l1 with
        | nil =>
          simp only [List.nil_append, List.cons.injEq] at heq
          rw [heq.1]
        | cons y ys =>
          simp only [List.cons_append, List.cons.injEq] at heq
          have hy : q y = false := hall y (by simp)
          rw [heq.1] at hx
          rw [hy] at hx
          cases hx
    · rw [List.find?_cons_of_neg _ hx, ih]
      constructor
      · rintro ⟨hqb, l1, l2, heq, hall⟩
        refine ⟨hqb, x :: l1, l2, by rw [heq, List.cons_append], ?_⟩
        intro a ha
        rcases List.mem_cons.mp ha with h1 | h1
        · rw [h1]; exact Bool.eq_false_iff.mpr hx
        · exact hall a h1
      · rintro ⟨hqb, l1, l2, heq, hall⟩
        cases l1 with
        | nil =>
          simp only [List.nil_append, List.cons.injEq] at heq
          rw [heq.1] at hx
          exact absurd hqb hx
        | cons y ys =>
          simp only [List.cons_append, List.cons.injEq] at heq
          exact ⟨hqb, ys, l2, heq.2, fun a ha => hall a (List.mem_cons_of_mem y ha)⟩

/-- C6: `detect_language` is total and deterministic — when the lowercased
extension lies in some entry's extension set it returns the first such
entry's language in table-declaration order, and otherwise it returns
`none` (in particular on empty, extensionless or unknown paths). -/
theorem detect_language_first_match (p : String) :
    ((∀ ls ∈ LANGUAGE_PATTERNS, extOf p ∉ ls.extensions) →
        detect_language p = none) ∧
    (∀ lang, detect_language p = some lang ↔
      ∃ ls l1 l2, LANGUAGE_PATTERNS = l1 ++ ls :: l2 ∧ ls.name = lang ∧
        extOf p ∈ ls.extensions ∧ ∀ e ∈ l1, extOf p ∉ e.extensions) := by
  have hmem : ∀ ls : LangSpec,
      (ls.extensions.contains (extOf p) = true) ↔ extOf p ∈ ls.extensions := by
    intro ls; simp
  constructor
  · intro h
    unfold detect_language findLangSpec
    rw [Option.map_eq_none', List.find?_eq_none]
    intro ls hls hq
    exact h ls hls ((hmem ls).mp hq)
  · intro lang
    unfold detect_language findLangSpec
    rw [Option.map_eq_some']
    constructor
    · rintro ⟨ls, hfind, hname⟩
      rw [find?_eq_some_split] at hfind
      obtain ⟨hq, l1, l2, heq, hall⟩ := hfind
      refine ⟨ls, l1, l2, heq, hname, (hmem ls).mp hq, ?_⟩
      intro e he hin
      have := hall e he
      rw [(hmem e).mpr hin] at this
      cases this
    · rintro ⟨ls, l1, l2, heq, hname, hin, hall⟩
      refine ⟨ls, ?_, hname⟩
      rw [find?_eq_some_split]
      refine ⟨(hmem ls).mpr hin, l1, l2, heq, ?_⟩
      intro a ha
      exact Bool.eq_false_iff.mpr (fun hq => hall a ha ((hmem a).mp hq))

/-- Witness for C6 at a concrete path: `"app/main.py"` is detected as
Python, the first (and only) matching table entry. -/
theorem detect_language_first_match_witness :
    detect_language "app/main.py" = some "python" :=
  ((detect_language_first_match "app/main.py").2 "python").mpr
    ⟨⟨"python", [".py"],
      [("function", kwName "def"), ("class", kwName "class"),
       ("import", pyImportRegex)]⟩,
     [], LANGUAGE_PATTERNS.tail, rfl, rfl, by decide, by simp⟩

lemma edgesFor_no_self (allNames : List String) (lines : List (List Char))
    (f : Entity) : ∀ e ∈ edgesFor allNames lines f, e.«from» ≠ e.«to» := by
  intro e he
  unfold edgesFor at he
  rw [List.mem_filterMap] at he
  obtain ⟨n, _hn, hif⟩ := he
  by_cases hc : n ≠ f.name ∧ occursWord n (windowBody lines f.line) = true
  · rw [if_pos hc] at hif
    injection hif with hif
    subst hif
    exact fun hfe => hc.1 hfe.symm
  · rw [if_neg hc] at hif
    cases hif

lemma buildEdges_no_self (entities : List Entity) (lines : List (List Char)) :
    ∀ e ∈ buildEdges entities lines, e.«from» ≠ e.«to» := by
  intro e he
  unfold buildEdges at he
  rw [List.mem_flatten] at he
  obtain ⟨l, hl, hel⟩ := he
  rw [List.mem_map] at hl
  obtain ⟨f, _hf, rfl⟩ := hl
  exact edgesFor_no_self _ _ _ e hel

/-- C7: no edge produced by the call-graph construction of `analyze_file`
is a self-loop — for every content and path, every edge of the result has
`from ≠ to` (the loop skips `other_name == func['name']`). -/
theorem analyze_file_no_self_loop (st : Stats) (c : RawContent) (p : String)
    (r : FileResult) (h : (analyze_file st c p).2 = some r) :
    ∀ e ∈ r.edges, e.«from» ≠ e.«to» := by
  cases c with
  | nonStr => exact absurd h (by simp [analyze_file, fileResultOpt])
  | str s =>
    have hr : r = fileResultStr s p := by
      have := h
      simp only [analyze_file, fileResultOpt, Option.some.injEq] at this
      exact this.symm
    subst hr
    unfold fileResultStr
    cases hfind : findLangSpec p with
    | none => intro e he; simp [nonCodeResult] at he
    | some spec =>
      intro e he
      exact buildEdges_no_self _ _ e he

/-- Witness for C7: the `foo → bar` edge of the worked example, obtained
through the theorem, has distinct endpoints. -/
theorem analyze_file_no_self_loop_witness :
    (Edge.mk "foo" "bar" "calls").«from» ≠ (Edge.mk "foo" "bar" "calls").«to» :=
  analyze_file_no_self_loop resetStats (RawContent.str exampleContent) "a.py"
    (fileResultStr exampleContent "a.py") rfl (Edge.mk "foo" "bar" "calls")
    (by decide)

lemma cnt_append {α : Type} [DecidableEq α] (a : α) (l m : List α) :
    cnt a (l ++ m) = cnt a l + cnt a m := by
  induction l with
  | nil => simp [cnt]
  | cons b l ih => simp [cnt, ih]; omega

lemma cnt_flatten {α β : Type} [DecidableEq β] (g : α → List β) (e : β)
    (l : List α) :
    cnt e ((l.map g).flatten) = (l.map (fun x => cnt e (g x))).sum := by
  induction l with
  | nil => simp [cnt]
  | cons b l ih => simp [cnt_append, ih]

lemma cnt_edgesFor (names : List String) (lines : List (List Char)) (f : Entity)
    (a n : String) :
    cnt (Edge.mk a n "calls") (edgesFor names lines f) =
      if f.name = a ∧ n ≠ a ∧ occursWord n (windowBody lines f.line) = true
      then cnt n names else 0 := by
  induction names with
  | nil =>
    simp only [edgesFor, List.filterMap_nil, cnt]
    split <;> rfl
  | cons m ms ih =>
    simp only [edgesFor] at ih ⊢
    rw [List.filterMap_cons]
    by_cases hm : m ≠ f.name ∧ occursWord m (windowBody lines f.line) = true
    · rw [if_pos hm]
      simp only [cnt]
      rw [ih]
      by_cases hC : f.name = a ∧ n ≠ a ∧ occursWord n (windowBody lines f.line) = true
      · rw [if_pos hC, if_pos hC]
        by_cases hmn : m = n
        · subst hmn
          simp [Edge.mk.injEq, hC.1]
        · simp [Edge.mk.injEq, hmn]
      · rw [if_neg hC, if_neg hC]
        by_cases he : Edge.mk f.name m "calls" = Edge.mk a n "calls"
        · exfalso
          have h1 : f.name = a ∧ m = n ∧ ("calls" : String) = "calls" :=
            (Edge.mk.injEq _ _ _ _ _ _).mp he
          apply hC
          refine ⟨h1.1, ?_, ?_⟩
          · rw [← h1.2.1, ← h1.1]
            exact hm.1
          · rw [← h1.2.1]
            exact hm.2
        · simp [he]
    · rw [if_neg hm]
      rw [ih]
      by_cases hC : f.name = a ∧ n ≠ a ∧ occursWord n (windowBody lines f.line) = true
      · rw [if_pos hC, if_pos hC]
        by_cases hmn : m = n
        · exfalso
          apply hm
          constructor
          · intro h
            exact hC.2.1 (by rw [← hmn, h]; exact hC.1)
          · rw [hmn]
            exact hC.2.2
        · simp [cnt, hmn]
      · rw [if_neg hC, if_neg hC]

/-- C1, amended: for a function entity `f` and a name `n ≠ f.name`, the
edge `{from: f.name, to: n, type: calls}` is emitted once per *entity*
bearing the name `n` (the loop iterates the name list with duplicates),
not once per distinct name: the number of `(a, n)` call edges equals the
sum, over the function entities named `a` whose 30-line window contains
`n` as a whole word, of the number of entities named `n`. -/
theorem edge_multiplicity (st : Stats) (c p : String) (r : FileResult)
    (h : (analyze_file st (RawContent.str c) p).2 = some r) (a n : String) :
    cnt (Edge.mk a n "calls") r.edges =
      (r.functions.map (fun f =>
        if f.name = a ∧ n ≠ a ∧
            occursWord n (windowBody (splitCh '\n' c.toList) f.line) = true
        then cnt n (r.entities.map (fun e => e.name)) else 0)).sum := by
  have hr : r = fileResultStr c p := by
    simp only [analyze_file, fileResultOpt, Option.some.injEq] at h
    exact h.symm
  subst hr
  unfold fileResultStr
  cases hfind : findLangSpec p with
  | none => simp [nonCodeResult, cnt]
  | some spec =>
    simp only [codeResult, buildEdges]
    rw [cnt_flatten]
    congr 1
    apply List.map_congr_left
    intro f _hf
    exact cnt_edgesFor _ _ f a n

/-- Witness for C1's amended theorem at `dupContent`: the duplicated
`foo → bar` edge count is explained by the two entities named `bar`. -/
theorem edge_multiplicity_witness :
    cnt (Edge.mk "foo" "bar" "calls") (fileResultStr dupContent "d.py").edges =
      ((fileResultStr dupContent "d.py").functions.map (fun f =>
        if f.name = "foo" ∧ ("bar" : String) ≠ "foo" ∧
            occursWord "bar" (windowBody (splitCh '\n' dupContent.toList) f.line) = true
        then cnt "bar" ((fileResultStr dupContent "d.py").entities.map (fun e => e.name))
        else 0)).sum :=
  edge_multiplicity resetStats dupContent "d.py" (fileResultStr dupContent "d.py")
    rfl "foo" "bar"

lemma foldl_repoStep_results (fc : List (String × RawContent)) :
    ∀ (st : Stats) (acc : List FileResult),
      (fc.foldl repoStep (st, acc)).2 =
        acc ++ fc.filterMap (fun e => fileResultOpt e.2 e.1) := by
  induction fc with
  | nil => intro st acc; simp
  | cons e fc ih =>
    intro st acc
    rw [List.foldl_cons, List.filterMap_cons]
    cases hr : fileResultOpt e.2 e.1 with
    | none =>
      simp only [repoStep, hr]
      exact ih _ _
    | some r =>
      simp only [repoStep, hr]
      cases hl : r.language with
      | none => rw [ih]; simp
      | some lang => rw [ih]; simp

lemma updateStatsForFile_total (st : Stats) (p : String) :
    (updateStatsForFile st p).total_files = st.total_files + 1 := by
  simp only [updateStatsForFile, bumpCategory]
  split_ifs <;> rfl

lemma repoStep_total (st : Stats) (acc : List FileResult)
    (e : String × RawContent) :
    (repoStep (st, acc) e).1.total_files = st.total_files + 1 := by
  simp only [repoStep]
  cases hr : fileResultOpt e.2 e.1 with
  | none => exact updateStatsForFile_total st e.1
  | some r =>
    cases hl : r.language <;> simp only [hl] <;>
      exact updateStatsForFile_total st e.1

lemma foldl_repoStep_total (fc : List (String × RawContent)) :
    ∀ (st : Stats) (acc : List FileResult),
      (fc.foldl repoStep (st, acc)).1.total_files = st.total_files + fc.length := by
  induction fc with
  | nil => intro st acc; simp
  | cons e fc ih =>
    intro st acc
    rw [List.foldl_cons]
    have hstep : repoStep (st, acc) e =
        ((repoStep (st, acc) e).1, (repoStep (st, acc) e).2) := rfl
    rw [hstep, ih, repoStep_total]
    simp only [List.length_cons]
    omega

lemma fileResultStr_filepath (c p : String) :
    (fileResultStr c p).filepath = p := by
  unfold fileResultStr
  cases findLangSpec p <;> rfl

lemma strFiles_filterMap (l : List (String × String)) :
    (strFiles l).filterMap (fun e => fileResultOpt e.2 e.1) =
      l.map (fun e => fileResultStr e.2 e.1) := by
  induction l with
  | nil => rfl
  | cons e l ih =>
    simp only [strFiles, List.map_cons, List.filterMap_cons, fileResultOpt] at ih ⊢
    rw [ih]

lemma repo_results_around_failure (st : Stats) (l1 l2 : List (String × String))
    (p : String) :
    (analyze_repository st
        (strFiles l1 ++ [(p, RawContent.nonStr)] ++ strFiles l2)).results =
      l1.map (fun e => fileResultStr e.2 e.1) ++
        l2.map (fun e => fileResultStr e.2 e.1) := by
  show ((strFiles l1 ++ [(p, RawContent.nonStr)] ++ strFiles l2).foldl repoStep
      (resetStats, [])).2 = _
  rw [foldl_repoStep_results, List.filterMap_append, List.filterMap_append,
    strFiles_filterMap, strFiles_filterMap]
  simp [fileResultOpt]

lemma repo_results_str (st : Stats) (l : List (String × String)) :
    (analyze_repository st (strFiles l)).results =
      l.map (fun e => fileResultStr e.2 e.1) := by
  show ((strFiles l).foldl repoStep (resetStats, [])).2 = _
  rw [foldl_repoStep_results, strFiles_filterMap]
  simp

lemma map_filepath_map (l : List (String × String)) :
    (l.map (fun e => fileResultStr e.2 e.1)).map (fun r => r.filepath) =
      l.map Prod.fst := by
  rw [List.map_map]
  apply List.map_congr_left
  intro e _
  exact fileResultStr_filepath e.2 e.1

/-- C3: when exactly one supplied file (`p`, with non-string content)
raises during extraction, `analyze_repository` still returns normally:
`files_analyzed` is the number of supplied files minus one, `p` does not
occur among the per-file results, and those results are exactly the ones
obtained when the failing file is not supplied at all. -/
theorem repo_isolates_single_failure (st : Stats) (l1 l2 : List (String × String))
    (p : String) (hp : p ∉ (l1 ++ l2).map Prod.fst) :
    ((analyze_repository st
        (strFiles l1 ++ [(p, RawContent.nonStr)] ++ strFiles l2)).files_analyzed =
      (strFiles l1 ++ [(p, RawContent.nonStr)] ++ strFiles l2).length - 1) ∧
    (p ∉ ((analyze_repository st
        (strFiles l1 ++ [(p, RawContent.nonStr)] ++ strFiles l2)).results.map
          (fun r => r.filepath))) ∧
    ((analyze_repository st
        (strFiles l1 ++ [(p, RawContent.nonStr)] ++ strFiles l2)).results =
      (analyze_repository st (strFiles l1 ++ strFiles l2)).results) := by
  have hsplit : strFiles l1 ++ strFiles l2 = strFiles (l1 ++ l2) := by
    simp [strFiles]
  refine ⟨?_, ?_, ?_⟩
  · have hfa : (analyze_repository st
        (strFiles l1 ++ [(p, RawContent.nonStr)] ++ strFiles l2)).files_analyzed =
        (analyze_repository st
          (strFiles l1 ++ [(p, RawContent.nonStr)] ++ strFiles l2)).results.length := rfl
    rw [hfa, repo_results_around_failure]
    simp [strFiles]
  · rw [repo_results_around_failure, List.map_append, map_filepath_map,
      map_filepath_map]
    rw [List.map_append] at hp
    exact hp
  · rw [repo_results_around_failure, hsplit, repo_results_str, List.map_append]

/-- Witness for C3 on a concrete 3-file repository (`c.py` injected to
raise). -/
theorem repo_isolates_single_failure_witness :
    ((analyze_repository resetStats
        (strFiles [("a.py", "def foo():\n    pass")] ++ [("c.py", RawContent.nonStr)] ++
          strFiles [("b.md", "# x")])).files_analyzed =
      (strFiles [("a.py", "def foo():\n    pass")] ++ [("c.py", RawContent.nonStr)] ++
          strFiles [("b.md", "# x")]).length - 1) ∧
    ("c.py" ∉ ((analyze_repository resetStats
        (strFiles [("a.py", "def foo():\n    pass")] ++ [("c.py", RawContent.nonStr)] ++
          strFiles [("b.md", "# x")])).results.map (fun r => r.filepath))) ∧
    ((analyze_repository resetStats
        (strFiles [("a.py", "def foo():\n    pass")] ++ [("c.py", RawContent.nonStr)] ++
          strFiles [("b.md", "# x")])).results =
      (analyze_repository resetStats
        (strFiles [("a.py", "def foo():\n    pass")] ++ strFiles [("b.md", "# x")])).results) :=
  repo_isolates_single_failure resetStats [("a.py", "def foo():\n    pass")]
    [("b.md", "# x")] "c.py" (by decide)

/-- C4, amended: in a repository of 3 files of which exactly one raises
during extraction, `files_analyzed = 2`, the failing path is absent from
the per-file results, and the entity/function/class totals reflect only
the 2 successful files — but the `'stats'` block counts all 3 supplied
files (`total_files = 3`), because the statistics update inside
`analyze_file` precedes the raising use of the content. -/
theorem repo_three_files_one_failure (st : Stats) (l1 l2 : List (String × String))
    (p : String) (hp : p ∉ (l1 ++ l2).map Prod.fst)
    (hlen : l1.length + l2.length = 2) :
    ((analyze_repository st
        (strFiles l1 ++ [(p, RawContent.nonStr)] ++ strFiles l2)).files_analyzed = 2) ∧
    (p ∉ ((analyze_repository st
        (strFiles l1 ++ [(p, RawContent.nonStr)] ++ strFiles l2)).results.map
          (fun r => r.filepath))) ∧
    ((analyze_repository st
        (strFiles l1 ++ [(p, RawContent.nonStr)] ++ strFiles l2)).total_functions =
      (analyze_repository st (strFiles l1 ++ strFiles l2)).total_functions) ∧
    ((analyze_repository st
        (strFiles l1 ++ [(p, RawContent.nonStr)] ++ strFiles l2)).total_classes =
      (analyze_repository st (strFiles l1 ++ strFiles l2)).total_classes) ∧
    ((analyze_repository st
        (strFiles l1 ++ [(p, RawContent.nonStr)] ++ strFiles l2)).total_entities =
      (analyze_repository st (strFiles l1 ++ strFiles l2)).total_entities) ∧
    ((analyze_repository st
        (strFiles l1 ++ [(p, RawContent.nonStr)] ++ strFiles l2)).stats.total_files = 3) := by
  have hsplit : strFiles l1 ++ strFiles l2 = strFiles (l1 ++ l2) := by
    simp [strFiles]
  have hres2 : (analyze_repository st (strFiles l1 ++ strFiles l2)).results =
      l1.map (fun e => fileResultStr e.2 e.1) ++
        l2.map (fun e => fileResultStr e.2 e.1) := by
    rw [hsplit, repo_results_str, List.map_append]
  refine ⟨?_, ?_, ?_, ?_, ?_, ?_⟩
  · have hfa : (analyze_repository st
        (strFiles l1 ++ [(p, RawContent.nonStr)] ++ strFiles l2)).files_analyzed =
        (analyze_repository st
          (strFiles l1 ++ [(p, RawContent.nonStr)] ++ strFiles l2)).results.length := rfl
    rw [hfa, repo_results_around_failure]
    simp only [List.length_append, List.length_map]
    omega
  · rw [repo_results_around_failure, List.map_append, map_filepath_map,
      map_filepath_map]
    rw [List.map_append] at hp
    exact hp
  · show ((analyze_repository st
        (strFiles l1 ++ [(p, RawContent.nonStr)] ++ strFiles l2)).results.map
          (fun r => r.functions.length)).sum =
      ((analyze_repository st (strFiles l1 ++ strFiles l2)).results.map
          (fun r => r.functions.length)).sum
    rw [repo_results_around_failure, hres2]
  · show ((analyze_repository st
        (strFiles l1 ++ [(p, RawContent.nonStr)] ++ strFiles l2)).results.map
          (fun r => r.classes.length)).sum =
      ((analyze_repository st (strFiles l1 ++ strFiles l2)).results.map
          (fun r => r.classes.length)).sum
    rw [repo_results_around_failure, hres2]
  · show ((analyze_repository st
        (strFiles l1 ++ [(p, RawContent.nonStr)] ++ strFiles l2)).results.map
          (fun r => r.entityCount.getD 0)).sum =
      ((analyze_repository st (strFiles l1 ++ strFiles l2)).results.map
          (fun r => r.entityCount.getD 0)).sum
    rw [repo_results_around_failure, hres2]
  · show ((strFiles l1 ++ [(p, RawContent.nonStr)] ++ strFiles l2).foldl repoStep
        (resetStats, [])).1.total_files = 3
    rw [foldl_repoStep_total]
    simp only [List.length_append, List.length_map, List.length_cons, List.length_nil]
    simp [strFiles, resetStats]
    omega

/-- Witness for C4's amended theorem on a concrete 3-file repository. -/
theorem repo_three_files_one_failure_witness :
    ((analyze_repository resetStats
        (strFiles [("u.py", "def g():\n    pass")] ++ [("v.py", RawContent.nonStr)] ++
          strFiles [("w.md", "hello")])).files_analyzed = 2) ∧
    ("v.py" ∉ ((analyze_repository resetStats
        (strFiles [("u.py", "def g():\n    pass")] ++ [("v.py", RawContent.nonStr)] ++
          strFiles [("w.md", "hello")])).results.map (fun r => r.filepath))) ∧
    ((analyze_repository resetStats
        (strFiles [("u.py", "def g():\n    pass")] ++ [("v.py", RawContent.nonStr)] ++
          strFiles [("w.md", "hello")])).total_functions =
      (analyze_repository resetStats
        (strFiles [("u.py", "def g():\n    pass")] ++ strFiles [("w.md", "hello")])).total_functions) ∧
    ((analyze_repository resetStats
        (strFiles [("u.py", "def g():\n    pass")] ++ [("v.py", RawContent.nonStr)] ++
          strFiles [("w.md", "hello")])).total_classes =
      (analyze_repository resetStats
        (strFiles [("u.py", "def g():\n    pass")] ++ strFiles [("w.md", "hello")])).total_classes) ∧
    ((analyze_repository resetStats
        (strFiles [("u.py", "def g():\n    pass")] ++ [("v.py", RawContent.nonStr)] ++
          strFiles [("w.md", "hello")])).total_entities =
      (analyze_repository resetStats
        (strFiles [("u.py", "def g():\n    pass")] ++ strFiles [("w.md", "hello")])).total_entities) ∧
    ((analyze_repository resetStats
        (strFiles [("u.py", "def g():\n    pass")] ++ [("v.py", RawContent.nonStr)] ++
          strFiles [("w.md", "hello")])).stats.total_files = 3) :=
  repo_three_files_one_failure resetStats [("u.py", "def g():\n    pass")]
    [("w.md", "hello")] "v.py" (by decide) rfl
